import Mathlib

/-!
Shallow embedding of `amtl/experimental/am-atomic.h` (namespace `ke`).

The header provides a portable atomic value abstraction with two memory
orderings (`Relaxed`, `SeqCst`) and two compile-time backends:

* backend A (`KE_USE_CXX11_ATOMICS`, MSVC): `std::atomic<T>` operations with
  orderings taken from the `StlOrdering<Order>` policy;
* backend B (GCC): a plain `T value_` guarded by the fence policy
  `Synchronize<Order>` (no-op fences for `Relaxed`, `__sync_synchronize()`
  full fences for `SeqCst`), with `__sync_lock_test_and_set` as the
  hardware exchange primitive.

On top of the core sits the public wrapper `Atomic<T, Order>`; the primary
template is only declared, and the single definition is the specialization
`Atomic<bool, Order>`, privately inheriting `AtomicValueImpl<int32_t, Order>`
and encoding false/true as 0/1.

We embed the sequential value semantics of each backend, and for backend B
also the trace of observable actions (fences, plain reads/writes, the
exchange primitive), so that claims about fence placement can be stated.
`int32_t` is modelled as `Int`: none of the embedded operations perform
arithmetic, so no wraparound can occur.
-/

namespace Amtl

/-- The source enumeration `enum class MemoryOrdering { Relaxed, SeqCst }`. -/
inductive MemoryOrdering where
  | Relaxed
  | SeqCst
  deriving DecidableEq

/-- The six `std::memory_order` constants of C++11 `<atomic>`, used by the
`KE_USE_CXX11_ATOMICS` backend. -/
inductive StdMemoryOrder where
  | relaxed
  | consume
  | acquire
  | release
  | acq_rel
  | seq_cst
  deriving DecidableEq

/-- Relative strength of a `std::memory_order`: `relaxed` is the weakest and
`seq_cst` (the only globally totally ordered variant) the strongest. -/
def StdMemoryOrder.strength : StdMemoryOrder → Nat
  | .relaxed => 0
  | .consume => 1
  | .acquire => 2
  | .release => 2
  | .acq_rel => 3
  | .seq_cst => 4

/-- The three ordering constants of a `StlOrdering<Order>` specialization:
`Load`, `Store` and `ReadModifyWrite`. -/
structure StlOrderingPolicy where
  Load : StdMemoryOrder
  Store : StdMemoryOrder
  ReadModifyWrite : StdMemoryOrder

/-- The two specializations `StlOrdering<MemoryOrdering::Relaxed>` (all three
constants `memory_order_relaxed`) and `StlOrdering<MemoryOrdering::SeqCst>`
(all three constants `memory_order_seq_cst`). -/
def StlOrdering : MemoryOrdering → StlOrderingPolicy
  | .Relaxed => ⟨.relaxed, .relaxed, .relaxed⟩
  | .SeqCst => ⟨.seq_cst, .seq_cst, .seq_cst⟩

/-- Sequential value semantics of `std::atomic<T>::exchange(newValue, order)`:
the prior value is returned and `newValue` is stored.  The ordering argument
constrains inter-thread visibility only; it does not change the sequential
value behaviour. -/
def stdAtomicExchange {α : Type} (value_ newValue : α) (o : StdMemoryOrder) : α × α :=
  (value_, newValue)

/-- Sequential value semantics of `std::atomic<T>::load(order)`. -/
def stdAtomicLoad {α : Type} (value_ : α) (o : StdMemoryOrder) : α :=
  value_

/-- Sequential value semantics of `std::atomic<T>::store(v, order)`. -/
def stdAtomicStore {α : Type} (value_ newValue : α) (o : StdMemoryOrder) : α :=
  newValue

/-- Backend A: `impl::AtomicValueImpl<T, Order>` from the
`KE_USE_CXX11_ATOMICS` branch, wrapping a `std::atomic<T> value_`.
The `Order` parameter is the template argument selecting the
`StlOrdering<Order>` policy. -/
structure AtomicValueImplStl (Order : MemoryOrdering) (α : Type) where
  value_ : α

/-- Backend A `exchange`: `value_.exchange(newValue, StlOrder::ReadModifyWrite)`. -/
def AtomicValueImplStl.exchange {Order : MemoryOrdering} {α : Type}
    (a : AtomicValueImplStl Order α) (newValue : α) : α × AtomicValueImplStl Order α :=
  let r := stdAtomicExchange a.value_ newValue (StlOrdering Order).ReadModifyWrite
  (r.1, ⟨r.2⟩)

/-- Backend A `get`: `value_.load(StlOrder::Load)`. -/
def AtomicValueImplStl.get {Order : MemoryOrdering} {α : Type}
    (a : AtomicValueImplStl Order α) : α :=
  stdAtomicLoad a.value_ (StlOrdering Order).Load

/-- Backend A `set`: `value_.store(value, StlOrder::Store)`. -/
def AtomicValueImplStl.set {Order : MemoryOrdering} {α : Type}
    (a : AtomicValueImplStl Order α) (value : α) : AtomicValueImplStl Order α :=
  ⟨stdAtomicStore a.value_ value (StlOrdering Order).Store⟩

/-- Observable actions of backend B on a value of type α:
`__sync_synchronize()` (a full bidirectional memory fence), a plain read of
`value_`, a plain write to `value_`, and the hardware exchange primitive
`__sync_lock_test_and_set(&value_, v)` recording the prior and new values. -/
inductive FenceEvent (α : Type) where
  | sync_synchronize
  | plainRead (v : α)
  | plainWrite (v : α)
  | syncLockTestAndSet (old : α) (v : α)
  deriving DecidableEq

namespace Synchronize

/-- `Synchronize<Relaxed>::FenceBeforeLoad` has an empty body;
`Synchronize<SeqCst>::FenceBeforeLoad` calls `__sync_synchronize()`. -/
def FenceBeforeLoad (α : Type) : MemoryOrdering → List (FenceEvent α)
  | .Relaxed => []
  | .SeqCst => [.sync_synchronize]

/-- `Synchronize<Relaxed>::FenceAfterLoad` has an empty body;
`Synchronize<SeqCst>::FenceAfterLoad` calls `__sync_synchronize()`. -/
def FenceAfterLoad (α : Type) : MemoryOrdering → List (FenceEvent α)
  | .Relaxed => []
  | .SeqCst => [.sync_synchronize]

/-- `Synchronize<Relaxed>::FenceBeforeStore` has an empty body;
`Synchronize<SeqCst>::FenceBeforeStore` calls `__sync_synchronize()`. -/
def FenceBeforeStore (α : Type) : MemoryOrdering → List (FenceEvent α)
  | .Relaxed => []
  | .SeqCst => [.sync_synchronize]

/-- `Synchronize<Relaxed>::FenceAfterStore` has an empty body;
`Synchronize<SeqCst>::FenceAfterStore` calls `__sync_synchronize()`. -/
def FenceAfterStore (α : Type) : MemoryOrdering → List (FenceEvent α)
  | .Relaxed => []
  | .SeqCst => [.sync_synchronize]

end Synchronize

/-- Sequential value semantics of `__sync_lock_test_and_set(&value_, v)`:
`v` is stored and the prior value returned. -/
def syncLockTestAndSetPrim {α : Type} (value_ v : α) : α × α :=
  (value_, v)

/-- Backend B: `impl::AtomicValueImpl<T, Order>` from the fence-based branch
(`__GNUC__`, no C++11 atomics), holding a plain `T value_` and using the
`Model = Synchronize<Order>` fence policy. -/
structure AtomicValueImplFence (Order : MemoryOrdering) (α : Type) where
  value_ : α

/-- Backend B `exchange`: calls `Model::FenceBeforeStore()` and then
`__sync_lock_test_and_set(&value_, newValue)`.  Returns the result, the new
state, and the trace of observable actions in program order. -/
def AtomicValueImplFence.exchange {Order : MemoryOrdering} {α : Type}
    (a : AtomicValueImplFence Order α) (newValue : α) :
    α × AtomicValueImplFence Order α × List (FenceEvent α) :=
  let r := syncLockTestAndSetPrim a.value_ newValue
  (r.1, ⟨r.2⟩, Synchronize.FenceBeforeStore α Order ++ [.syncLockTestAndSet a.value_ newValue])

/-- Backend B `get`: `Model::FenceBeforeLoad(); T value = value_;
Model::FenceAfterLoad(); return value;`.  Returns the value read and the
trace of observable actions in program order. -/
def AtomicValueImplFence.get {Order : MemoryOrdering} {α : Type}
    (a : AtomicValueImplFence Order α) : α × List (FenceEvent α) :=
  (a.value_,
    Synchronize.FenceBeforeLoad α Order ++ [.plainRead a.value_] ++ Synchronize.FenceAfterLoad α Order)

/-- Backend B `set`: `Model::FenceBeforeStore(); value_ = value;
Model::FenceAfterStore();`.  Returns the new state and the trace. -/
def AtomicValueImplFence.set {Order : MemoryOrdering} {α : Type}
    (a : AtomicValueImplFence Order α) (value : α) :
    AtomicValueImplFence Order α × List (FenceEvent α) :=
  (⟨value⟩,
    Synchronize.FenceBeforeStore α Order ++ [.plainWrite value] ++ Synchronize.FenceAfterStore α Order)

/-- A single sequential call on an atomic core: `get()`, `set(v)` or
`exchange(v)`. -/
inductive AtomicOp (α : Type) where
  | get
  | set (v : α)
  | exchange (v : α)

/-- Run a sequence of calls against backend A, collecting the value returned
by each call (`none` for `set`, which returns void). -/
def AtomicValueImplStl.run {Order : MemoryOrdering} {α : Type}
    (a : AtomicValueImplStl Order α) :
    List (AtomicOp α) → List (Option α) × AtomicValueImplStl Order α
  | [] => ([], a)
  | .get :: ops =>
    let rest := a.run ops
    (some a.get :: rest.1, rest.2)
  | .set v :: ops =>
    let rest := (a.set v).run ops
    (none :: rest.1, rest.2)
  | .exchange v :: ops =>
    let r := a.exchange v
    let rest := r.2.run ops
    (some r.1 :: rest.1, rest.2)

/-- Run a sequence of calls against backend B, collecting the value returned
by each call (`none` for `set`); the fence traces are not part of the values
compared here. -/
def AtomicValueImplFence.run {Order : MemoryOrdering} {α : Type}
    (b : AtomicValueImplFence Order α) :
    List (AtomicOp α) → List (Option α) × AtomicValueImplFence Order α
  | [] => ([], b)
  | .get :: ops =>
    let rest := b.run ops
    (some (b.get).1 :: rest.1, rest.2)
  | .set v :: ops =>
    let rest := (b.set v).1.run ops
    (none :: rest.1, rest.2)
  | .exchange v :: ops =>
    let r := b.exchange v
    let rest := r.2.1.run ops
    (some r.1 :: rest.1, rest.2)

/-- The C++ idiom `!!x` on an integer: true exactly when `x` is nonzero. -/
def bangBang (x : Int) : Bool :=
  x != 0

/-- The conditional `value ? 1 : 0` translating a bool to its int32 encoding. -/
def boolToInt32 (value : Bool) : Int :=
  if value then 1 else 0

/-- The scalar types a caller might use to instantiate the public wrapper
`Atomic<T, Order>`. -/
inductive CppType where
  | bool
  | int8
  | int16
  | int32
  | int64
  | uint32
  | uint64
  deriving DecidableEq

/-- Which instantiations of `Atomic<T, Order>` the header defines.  The
primary template `template <typename T, MemoryOrdering Order> class Atomic;`
is only declared, never defined; the sole definition in the header is the
specialization `Atomic<bool, Order>`. -/
def atomicHasDefinition : CppType → Bool
  | .bool => true
  | _ => false

/-- `Atomic<bool, Order>`: privately inherits
`AtomicValueImpl<int32_t, Order>` (the `base` field is that subobject).
Backend A is used as the base here; the two backends have identical
sequential value semantics (proved below), so the choice does not affect
any value-level statement. -/
structure AtomicBool (Order : MemoryOrdering) where
  base : AtomicValueImplStl Order Int

/-- The default constructor `Atomic() : Base(0)`. -/
def AtomicBool.mkDefault (Order : MemoryOrdering) : AtomicBool Order :=
  ⟨⟨0⟩⟩

/-- The explicit constructor `Atomic(bool value) : Base(value ? 1 : 0)`. -/
def AtomicBool.mkBool (Order : MemoryOrdering) (value : Bool) : AtomicBool Order :=
  ⟨⟨boolToInt32 value⟩⟩

/-- The implicit read `operator bool() const { return !!Base::get(); }`. -/
def AtomicBool.toBool {Order : MemoryOrdering} (a : AtomicBool Order) : Bool :=
  bangBang a.base.get

/-- `bool exchange(bool value) { return !!Base::exchange(value ? 1 : 0); }` -/
def AtomicBool.exchange {Order : MemoryOrdering} (a : AtomicBool Order) (value : Bool) :
    Bool × AtomicBool Order :=
  let r := a.base.exchange (boolToInt32 value)
  (bangBang r.1, ⟨r.2⟩)

/-- The states of `Atomic<bool, Order>` reachable through its public
interface: the two constructors, and `exchange` (the only mutator the
specialization exposes). -/
inductive AtomicBool.Reachable (Order : MemoryOrdering) : AtomicBool Order → Prop where
  | mkDefault : Reachable Order (AtomicBool.mkDefault Order)
  | mkBool (value : Bool) : Reachable Order (AtomicBool.mkBool Order value)
  | exchange {a : AtomicBool Order} (value : Bool) :
      Reachable Order a → Reachable Order (a.exchange value).2

/-- C1 (counterexample): in the fence-based backend instantiated with
`MemoryOrdering::Relaxed`, `exchange` issues no full memory fence at all —
`Model::FenceBeforeStore()` resolves to the empty
`Synchronize<Relaxed>::FenceBeforeStore`, so the trace of
`exchange(1)` on a core holding 0 contains no `__sync_synchronize()`.
This refutes the claim that a full fence is issued for every requested
ordering. -/
theorem fence_exchange_relaxed_no_fence :
    ¬ (FenceEvent.sync_synchronize ∈
        ((⟨0⟩ : AtomicValueImplFence MemoryOrdering.Relaxed Int).exchange 1).2.2) := by
  decide

/-- C1 (amended): in the fence-based backend, `exchange` issues the ordering
policy's before-store fence and then the hardware exchange primitive: under
SeqCst the trace is a full `__sync_synchronize()` fence followed by
`__sync_lock_test_and_set`, while under Relaxed the before-store fence is a
no-op and the trace is the exchange primitive alone. -/
theorem fence_exchange_fence_matches_order :
    ∀ (α : Type) (aS : AtomicValueImplFence MemoryOrdering.SeqCst α)
      (aR : AtomicValueImplFence MemoryOrdering.Relaxed α) (v : α),
    (aS.exchange v).2.2 =
      [FenceEvent.sync_synchronize, FenceEvent.syncLockTestAndSet aS.value_ v] ∧
    (aR.exchange v).2.2 = [FenceEvent.syncLockTestAndSet aR.value_ v] :=
  fun _ _ _ _ => ⟨rfl, rfl⟩

/-- C2 (counterexample): `Atomic<int32>` has no definition — the primary
template `Atomic<T, Order>` is only declared — so `Atomic<int32>()` does not
exist, let alone default-construct to 0. -/
theorem atomic_int32_not_defined :
    ¬ (atomicHasDefinition CppType.int32 = true) := by
  decide

/-- C2 (amended): `Atomic<bool>()` default-constructs to false (its
underlying integer core holds 0) for every ordering; the bool specialization
is the only defined instantiation, and in particular `Atomic<int32>` is not
defined, so no default-construction statement applies to it. -/
theorem atomic_default_construction :
    ∀ (Order : MemoryOrdering),
    (AtomicBool.mkDefault Order).base.value_ = 0 ∧
    (AtomicBool.mkDefault Order).toBool = false ∧
    atomicHasDefinition CppType.bool = true ∧
    atomicHasDefinition CppType.int32 = false := by
  intro Order
  exact ⟨rfl, rfl, rfl, rfl⟩

/-- C3: in both backends, for every value v and every state of the atomic
core, `exchange(v)` returns the value stored immediately before the call and
leaves the core storing v. -/
theorem exchange_postcondition :
    ∀ (Order : MemoryOrdering) (α : Type)
      (a : AtomicValueImplStl Order α) (b : AtomicValueImplFence Order α) (v : α),
    (a.exchange v).1 = a.value_ ∧ (a.exchange v).2.value_ = v ∧
    (b.exchange v).1 = b.value_ ∧ (b.exchange v).2.1.value_ = v :=
  fun _ _ _ _ _ => ⟨rfl, rfl, rfl, rfl⟩

/-- C4: boolean round-trip — `Atomic<bool>` constructed with b and then read
returns b; and on any instance reading as false, `exchange(true)` returns
false and leaves the instance reading as true. -/
theorem bool_round_trip :
    ∀ (Order : MemoryOrdering) (b : Bool) (a : AtomicBool Order),
    (AtomicBool.mkBool Order b).toBool = b ∧
    (a.toBool = false →
      (a.exchange true).1 = false ∧ ((a.exchange true).2).toBool = true) := by
  intro Order b a
  refine ⟨by cases b <;> rfl, fun h => ?_⟩
  have hv : a.base.value_ = 0 := by
    simpa [AtomicBool.toBool, AtomicValueImplStl.get, stdAtomicLoad, bangBang] using h
  refine ⟨?_, rfl⟩
  simp [AtomicBool.exchange, AtomicValueImplStl.exchange, stdAtomicExchange, bangBang, hv]

/-- Witness for the boolean round-trip theorem at the concrete instance
`Atomic<bool>` constructed with false under SeqCst. -/
theorem bool_round_trip_witness :
    (AtomicBool.mkBool MemoryOrdering.SeqCst false).toBool = false ∧
    ((AtomicBool.mkBool MemoryOrdering.SeqCst false).exchange true).1 = false ∧
    (((AtomicBool.mkBool MemoryOrdering.SeqCst false).exchange true).2).toBool = true :=
  ⟨by decide,
   (bool_round_trip MemoryOrdering.SeqCst false
      (AtomicBool.mkBool MemoryOrdering.SeqCst false)).2 (by decide)⟩

/-- C5: invariant of `Atomic<bool, Order>` — in every state reachable through
its public interface (default construction, construction from a bool, and
exchange), the value held by the underlying int32 core is 0 or 1, because the
translation layer maps every boolean input to 0 or 1 before handing it to the
integer core. -/
theorem atomicBool_core_invariant :
    ∀ (Order : MemoryOrdering) (a : AtomicBool Order),
    AtomicBool.Reachable Order a → a.base.value_ = 0 ∨ a.base.value_ = 1 := by
  intro Order a h
  induction h with
  | mkDefault => exact Or.inl rfl
  | mkBool value =>
    cases value
    · exact Or.inl rfl
    · exact Or.inr rfl
  | exchange value _ _ =>
    cases value
    · exact Or.inl rfl
    · exact Or.inr rfl

/-- Witness for the invariant theorem at a concrete reachable state: the
state reached by constructing with true and exchanging in false. -/
theorem atomicBool_core_invariant_witness :
    ((AtomicBool.mkBool MemoryOrdering.SeqCst true).exchange false).2.base.value_ = 0 ∨
    ((AtomicBool.mkBool MemoryOrdering.SeqCst true).exchange false).2.base.value_ = 1 :=
  atomicBool_core_invariant MemoryOrdering.SeqCst
    ((AtomicBool.mkBool MemoryOrdering.SeqCst true).exchange false).2
    (AtomicBool.Reachable.exchange false (AtomicBool.Reachable.mkBool true))

/-- C6: the native-backend ordering policy maps Relaxed to
`memory_order_relaxed` for each of Load, Store and ReadModifyWrite — the
weakest `std::memory_order` — and maps SeqCst to `memory_order_seq_cst` for
all three — the strongest, globally totally ordered variant. -/
theorem stl_ordering_mapping :
    ((StlOrdering .Relaxed).Load = .relaxed ∧
     (StlOrdering .Relaxed).Store = .relaxed ∧
     (StlOrdering .Relaxed).ReadModifyWrite = .relaxed) ∧
    ((StlOrdering .SeqCst).Load = .seq_cst ∧
     (StlOrdering .SeqCst).Store = .seq_cst ∧
     (StlOrdering .SeqCst).ReadModifyWrite = .seq_cst) ∧
    (∀ m : StdMemoryOrder,
      StdMemoryOrder.strength .relaxed ≤ m.strength ∧
      m.strength ≤ StdMemoryOrder.strength .seq_cst) := by
  refine ⟨⟨rfl, rfl, rfl⟩, ⟨rfl, rfl, rfl⟩, ?_⟩
  intro m
  cases m <;> exact ⟨by decide, by decide⟩

/-- C7: the emulation backend's fence policy is a no-op on all four fences
(before/after load, before/after store) under Relaxed and a full fence on all
four under SeqCst; `get` executes before-load fence, plain read, after-load
fence and returns the value read; `set` executes before-store fence, plain
write, after-store fence and leaves the written value stored. -/
theorem fence_policy_and_load_store_shape :
    (∀ α : Type,
      Synchronize.FenceBeforeLoad α .Relaxed = [] ∧
      Synchronize.FenceAfterLoad α .Relaxed = [] ∧
      Synchronize.FenceBeforeStore α .Relaxed = [] ∧
      Synchronize.FenceAfterStore α .Relaxed = []) ∧
    (∀ α : Type,
      Synchronize.FenceBeforeLoad α .SeqCst = [.sync_synchronize] ∧
      Synchronize.FenceAfterLoad α .SeqCst = [.sync_synchronize] ∧
      Synchronize.FenceBeforeStore α .SeqCst = [.sync_synchronize] ∧
      Synchronize.FenceAfterStore α .SeqCst = [.sync_synchronize]) ∧
    (∀ (Order : MemoryOrdering) (α : Type) (a : AtomicValueImplFence Order α) (v : α),
      (a.get).2 =
        Synchronize.FenceBeforeLoad α Order ++ [.plainRead a.value_] ++
          Synchronize.FenceAfterLoad α Order ∧
      (a.get).1 = a.value_ ∧
      (a.set v).2 =
        Synchronize.FenceBeforeStore α Order ++ [.plainWrite v] ++
          Synchronize.FenceAfterStore α Order ∧
      (a.set v).1.value_ = v) :=
  ⟨fun _ => ⟨rfl, rfl, rfl, rfl⟩,
   fun _ => ⟨rfl, rfl, rfl, rfl⟩,
   fun _ _ _ _ => ⟨rfl, rfl, rfl, rfl⟩⟩

/-- Helper for backend equivalence: starting from cores holding the same
value, running the same call sequence against backend A and backend B yields
the same list of returned values and leaves the same stored value. -/
theorem run_agree {Order : MemoryOrdering} {α : Type} :
    ∀ (ops : List (AtomicOp α))
      (a : AtomicValueImplStl Order α) (b : AtomicValueImplFence Order α),
    a.value_ = b.value_ →
    (a.run ops).1 = (b.run ops).1 ∧ (a.run ops).2.value_ = (b.run ops).2.value_ := by
  intro ops
  induction ops with
  | nil => exact fun a b h => ⟨rfl, h⟩
  | cons op ops ih =>
    intro a b h
    cases op with
    | get =>
      have hrec := ih a b h
      exact ⟨by
        simp [AtomicValueImplStl.run, AtomicValueImplFence.run, AtomicValueImplStl.get,
          AtomicValueImplFence.get, stdAtomicLoad, h, hrec.1], by
        simpa [AtomicValueImplStl.run, AtomicValueImplFence.run] using hrec.2⟩
    | set v =>
      have hrec := ih (a.set v) (b.set v).1 rfl
      exact ⟨by
        simp [AtomicValueImplStl.run, AtomicValueImplFence.run, hrec.1], by
        simpa [AtomicValueImplStl.run, AtomicValueImplFence.run] using hrec.2⟩
    | exchange v =>
      have hrec := ih ⟨v⟩ ⟨v⟩ rfl
      refine ⟨?_, ?_⟩ <;>
        simp [AtomicValueImplStl.run, AtomicValueImplFence.run, AtomicValueImplStl.exchange,
          AtomicValueImplFence.exchange, stdAtomicExchange, syncLockTestAndSetPrim, h,
          hrec.1, hrec.2]

/-- C8: the two backends are interchangeable at the level of sequential value
semantics — for every ordering, every value type, every initial value and
every sequence of get/set/exchange calls, the STL-based and the fence-based
implementations return the same values call by call and end with the same
stored value. -/
theorem backends_equivalent :
    ∀ (Order : MemoryOrdering) (α : Type) (v0 : α) (ops : List (AtomicOp α)),
    ((⟨v0⟩ : AtomicValueImplStl Order α).run ops).1 =
      ((⟨v0⟩ : AtomicValueImplFence Order α).run ops).1 ∧
    ((⟨v0⟩ : AtomicValueImplStl Order α).run ops).2.value_ =
      ((⟨v0⟩ : AtomicValueImplFence Order α).run ops).2.value_ :=
  fun _ _ v0 ops => run_agree ops ⟨v0⟩ ⟨v0⟩ rfl

/-- C10: the public wrapper `Atomic<T, Order>` is defined for T = bool and
for no other type — the primary template is declared but never defined, so
only the bool specialization is usable. -/
theorem atomic_defined_only_bool :
    ∀ t : CppType, atomicHasDefinition t = true ↔ t = CppType.bool := by
  intro t
  cases t <;> decide

end Amtl
